import Mathlib

/-!
Verification of the PolyPasswordHasher-ECC store (`polypasswordhasher.py`)
against its natural-language specification.

Shallow embedding conventions:
* Byte strings are `List Nat` (each element one byte value; the code never
  relies on overflow, it only hashes, XORs, slices and compares bytes).
* External cryptographic primitives (SHA-256, AES-256-ECB, and the
  `reedsolomon` share engine, whose source is not part of this repository)
  are fields of a `Prims` structure; theorems quantify over them, stating
  only the interface facts the specification gives (length preservation,
  `is_valid_share x (compute_share x) = true`, ...).  The share engine is
  modelled from the spec (section 4.3): the repository imports a
  `reedsolomon` module that is not in the sources.
* `os.urandom` salt generation is replaced by explicit salt arguments.
* Python `raise` is modelled with `Except`; the assertion inside
  `_do_bytearray_XOR` is an explicit error value.
* Python 2 `None` values of instance attributes are `Option`.

Python source line references are to `src/pph_ecc/polypasswordhasher.py`.
-/

/-- One account record: the dict with keys `sharenumber`, `salt`,
`passhash` stored in `accountdict[username]`.  The extra `passshash`
field models the stray dictionary key that `unlock_password_data`
creates through the `entry['passshash'] = ...` typo (line 400); it is
absent (`none`) on every record produced by `create_account`. -/
structure Entry where
  sharenumber : Int
  salt : List Nat
  passhash : List Nat
  passshash : Option (List Nat) := none
deriving DecidableEq, Repr

/-- The mutable state of a `PolyPasswordHasher` object.  `accountdict` is
an association list (Python dict keyed by username); `bootstrap_accounts`
holds references into `accountdict` records, modelled as
(username, record index) pairs — every bootstrap account is created as a
fresh user with a single record, so the index is always 0. -/
structure Store where
  threshold : Nat
  knownsecret : Bool
  isolated_check_bits : Nat
  shieldedkey : Option (List Nat)
  secret_integrity_check : Option (List Nat)
  nextavailableshare : Option Int
  accountdict : List (String × List Entry)
  bootstrap_accounts : List (String × Nat)
deriving DecidableEq, Repr

/-- External primitives consumed by the store.  `compute_share`,
`is_valid_share` and `recover_secretdata` model the interface of the
`reedsolomon` module, whose implementation is not in this repository
(modelled from the spec, section 4.3). -/
structure Prims where
  sha256 : List Nat → List Nat
  aes_encrypt : List Nat → List Nat → List Nat
  compute_share : Int → List Nat
  is_valid_share : Int → List Nat → Bool
  recover_secretdata : List (Int × List Nat) → Except Unit (List Nat)

/-- `icb_iterations` class constant (line 110). -/
def icb_iterations : Nat := 1000

/-- `recombination_iterations` class constant (line 111). -/
def recombination_iterations : Nat := 100000

/-- Python `range(a, b)`. -/
def pyRange (a b : Nat) : List Nat := List.range' a (b - a)

/-- `_do_bytearray_XOR` (lines 470-483): position-wise XOR of two byte
sequences; the `assert(len(a) == len(b))` is modelled as an error. -/
def do_bytearray_XOR (a b : List Nat) : Except Unit (List Nat) :=
  if a.length = b.length then .ok (List.zipWith Nat.xor a b) else .error ()

/-- Lookup of `accountdict[username]` in the association-list model. -/
def lookupAccount : List (String × List Entry) → String → Option (List Entry)
  | [], _ => none
  | (v, es) :: rest, u => if v = u then some es else lookupAccount rest u

/-- `create_isolated_validation_bits` (lines 454-465): the loop
`for i in range(1, icb_iterations)` re-hashes the input, then the last
`icbs` bytes are returned. -/
def create_isolated_validation_bits (H : List Nat → List Nat) (icbs : Nat)
    (passhash : List Nat) : List Nat :=
  let r := (pyRange 1 icb_iterations).foldl (fun a _ => H a) passhash
  r.drop (r.length - icbs)

/-- `isolated_validation` (lines 410-417). -/
def isolated_validation (H : List Nat → List Nat) (icbs : Nat)
    (passhash stored_hash : List Nat) : Bool :=
  create_isolated_validation_bits H icbs passhash
    == stored_hash.drop (stored_hash.length - icbs)

/-- `verify_secret` (lines 419-434): one initial hash plus
`range(1, recombination_iterations)` further rounds, compared to the
stored fingerprint (comparison with a missing fingerprint is false, as
Python equality with `None` is). -/
def verify_secret (P : Prims) (s : Store) (secret : List Nat) : Bool :=
  let d := (pyRange 1 recombination_iterations).foldl
    (fun a _ => P.sha256 a) (P.sha256 secret)
  some d == s.secret_integrity_check

/-- The share-counter computation of the load path of `__init__`
(lines 177-184): fold Python-2 `max` (where `None` sorts below every
int) over all record share numbers, then the statement
`self.nextavailableshare += self.nextavailableshare`; when the counter is
still `None` that statement raises `TypeError`, modelled as `.error`. -/
def load_nextavailableshare (accountdict : List (String × List Entry)) :
    Except Unit Int :=
  let m := accountdict.foldl
    (fun acc p => p.2.foldl
      (fun a e =>
        some (match a with
          | none => e.sharenumber
          | some v => max v e.sharenumber)) acc)
    (none : Option Int)
  match m with
  | none => .error ()
  | some v => .ok (v + v)

/-- Errors `is_valid_login` can surface. -/
inductive LoginErr where
  | stillBootstrapping
  | unknownUser
  | assertionError
  | typeError
deriving DecidableEq, Repr

/-- The body of the record loop of `is_valid_login` (lines 285-331).
Every control path of the Python loop body executes a `return`, so the
body is a straight-line function of one entry. -/
def login_entry (P : Prims) (s : Store) (password : List Nat)
    (entry : Entry) : Except LoginErr (Option Bool) :=
  let saltedpasswordhash := P.sha256 (entry.salt ++ password)
  if entry.sharenumber = -1 then
    .ok (some (saltedpasswordhash == entry.passhash))
  else if s.knownsecret = false then
    .ok (some (isolated_validation P.sha256 s.isolated_check_bits
      saltedpasswordhash entry.passhash))
  else
    match do_bytearray_XOR saltedpasswordhash
        (entry.passhash.take (entry.passhash.length - s.isolated_check_bits)) with
    | .error _ => .error .assertionError
    | .ok sharedata =>
      let isolated_check :=
        if s.isolated_check_bits > 0 then
          isolated_validation P.sha256 s.isolated_check_bits
            saltedpasswordhash entry.passhash
        else false
      if entry.sharenumber = 0 then
        match s.shieldedkey with
        | none => .error .typeError
        | some key =>
          .ok (some (P.aes_encrypt key saltedpasswordhash
            == entry.passhash.take (entry.passhash.length - s.isolated_check_bits)))
      else
        let share := (entry.sharenumber, sharedata)
        .ok (some (P.is_valid_share share.1 share.2))

/-- `is_valid_login` (lines 270-331), with the post-call store state
threaded explicitly (the method contains no assignment to `self`, which
the frame theorem below makes precise).  Result `some verdict` is a
returned boolean; `none` is Python falling off the loop (possible only
for a user with an empty record list). -/
def is_valid_login_st (P : Prims) (s : Store) (username : String)
    (password : List Nat) : Except LoginErr (Option Bool) × Store :=
  if s.knownsecret = false ∧ s.isolated_check_bits = 0 then
    (.error .stillBootstrapping, s)
  else
    match lookupAccount s.accountdict username with
    | none => (.error .unknownUser, s)
    | some entries =>
      match entries with
      | [] => (.ok none, s)
      | entry :: _ => (login_entry P s password entry, s)

/-- The verdict of `is_valid_login`. -/
def is_valid_login (P : Prims) (s : Store) (username : String)
    (password : List Nat) : Except LoginErr (Option Bool) :=
  (is_valid_login_st P s username password).1

/-- Errors `create_account` can raise (lines 190-213 and the XOR assert). -/
inductive CreateErr where
  | duplicateUser
  | invalidShares
  | exceedsShares
  | bootstrapOnly
  | typeError
  | assertionError
deriving DecidableEq, Repr

/-- The protector-record loop of `create_account` (lines 250-264):
record `i` uses coordinate `next + i` and the `i`-th fresh salt. -/
def mk_protector_entries (P : Prims) (icbs : Nat) (password : List Nat)
    (salts : Nat → List Nat) (next : Int) (shares : Nat) :
    Except CreateErr (List Entry) :=
  (List.range shares).mapM (fun (i : Nat) =>
    let sharenumber := next + (i : Int)
    let reedsolomondata := P.compute_share sharenumber
    let salt := salts i
    let h := P.sha256 (salt ++ password)
    match do_bytearray_XOR h reedsolomondata with
    | .error _ => .error CreateErr.assertionError
    | .ok d => .ok
        { sharenumber := sharenumber
          salt := salt
          passhash := d ++ create_isolated_validation_bits P.sha256 icbs h
          passshash := none })

/-- `create_account` (lines 186-267).  Salt generation (`os.urandom`) is
replaced by the explicit `salts` stream.  Order of checks follows the
source: duplicate user, share-count range, `shares + nextavailableshare`
overflow (a `TypeError` when the counter is still `None`), then the
bootstrap / shielded / protector branches.  The bootstrap branch falls
through the (empty) protector loop, leaving the counter unchanged. -/
def create_account (P : Prims) (s : Store) (username : String)
    (password : List Nat) (shares : Nat) (salts : Nat → List Nat) :
    Except CreateErr Store :=
  if (lookupAccount s.accountdict username).isSome then .error .duplicateUser
  else if shares > 255 then .error .invalidShares
  else
    match s.nextavailableshare with
    | none => .error .typeError
    | some next =>
      if (shares : Int) + next > 255 then .error .exceedsShares
      else if s.knownsecret = false then
        if shares ≠ 0 then .error .bootstrapOnly
        else
          let salt := salts 0
          let h := P.sha256 (salt ++ password)
          let e : Entry :=
            { sharenumber := -1
              salt := salt
              passhash := h
              passshash := none }
          .ok { s with
                accountdict := s.accountdict ++ [(username, [e])]
                bootstrap_accounts := s.bootstrap_accounts ++ [(username, 0)] }
      else if shares = 0 then
        match s.shieldedkey with
        | none => .error .typeError
        | some key =>
          let salt := salts 0
          let h := P.sha256 (salt ++ password)
          let e : Entry :=
            { sharenumber := 0
              salt := salt
              passhash := P.aes_encrypt key h
                ++ create_isolated_validation_bits P.sha256 s.isolated_check_bits h
              passshash := none }
          .ok { s with accountdict := s.accountdict ++ [(username, [e])] }
      else
        match mk_protector_entries P s.isolated_check_bits password salts
            next shares with
        | .error e => .error e
        | .ok entries =>
          .ok { s with
                accountdict := s.accountdict ++ [(username, entries)]
                nextavailableshare := some (next + (shares : Int)) }

/-- One share candidate built by the `unlock_password_data` inner loop
(lines 381-384): XOR the salted hash into the passhash with the
isolated-check suffix stripped; the length assertion of
`_do_bytearray_XOR` can fire. -/
def entry_share (P : Prims) (icbs : Nat) (password : List Nat)
    (entry : Entry) : Except LoginErr (Int × List Nat) :=
  let h := P.sha256 (entry.salt ++ password)
  match do_bytearray_XOR h
      (entry.passhash.take (entry.passhash.length - icbs)) with
  | .error _ => .error .assertionError
  | .ok d => .ok (entry.sharenumber, d)

/-- The per-user part of the share collection loop of
`unlock_password_data` (lines 375-387): entries with `sharenumber == 0`
are skipped by the `continue`; every other entry contributes a share. -/
def user_shares (P : Prims) (icbs : Nat) (password : List Nat) :
    List Entry → Except LoginErr (List (Int × List Nat))
  | [] => .ok []
  | e :: rest =>
    if e.sharenumber = 0 then user_shares P icbs password rest
    else
      match entry_share P icbs password e with
      | .error err => .error err
      | .ok sh => (user_shares P icbs password rest).map (fun l => sh :: l)

/-- The share collection of `unlock_password_data` (lines 369-387):
iterate over the submitted (username, password) pairs, raising on an
unknown user, and concatenate each user's candidate shares. -/
def build_sharelist (P : Prims) (s : Store) :
    List (String × List Nat) → Except LoginErr (List (Int × List Nat))
  | [] => .ok []
  | (username, password) :: rest =>
    match lookupAccount s.accountdict username with
    | none => .error .unknownUser
    | some entries =>
      match user_shares P s.isolated_check_bits password entries with
      | .error e => .error e
      | .ok shs => (build_sharelist P s rest).map (fun l => shs ++ l)

/-- Errors `unlock_password_data` can surface. -/
inductive UnlockErr where
  | alreadyOperational
  | unknownUser
  | assertionError
  | recoveryFailure
  | badUnlock
deriving DecidableEq, Repr

/-- The `ValueError`s of the share-collection phase, as unlock errors. -/
def login_err_to_unlock : LoginErr → UnlockErr
  | .unknownUser => .unknownUser
  | _ => .assertionError

/-- The re-encoding of one bootstrap record on unlock (lines 399-401):
`entry['passshash'] = AES(...).encrypt(entry['passhash'])` writes the
ciphertext to a NEW dictionary key (`passshash`, a typo for `passhash`),
then `entry['sharenumber'] = 0`; the `passhash` field itself is left
untouched. -/
def promote_entry (P : Prims) (key : List Nat) (e : Entry) : Entry :=
  { e with
    passshash := some (P.aes_encrypt key e.passhash)
    sharenumber := 0 }

/-- Apply a function to the record at a given index of a record list. -/
def modify_at (f : Entry → Entry) : Nat → List Entry → List Entry
  | _, [] => []
  | 0, e :: r => f e :: r
  | n + 1, e :: r => e :: modify_at f n r

/-- Apply the bootstrap promotion to the record `idx` of user `u` (the
Python bootstrap ledger aliases the record dicts inside `accountdict`,
so mutating a ledger entry mutates the account map). -/
def promote_in_dict (P : Prims) (key : List Nat) (u : String) (idx : Nat) :
    List (String × List Entry) → List (String × List Entry)
  | [] => []
  | (v, es) :: rest =>
    if v = u then (v, modify_at (promote_entry P key) idx es) :: rest
    else (v, es) :: promote_in_dict P key u idx rest

/-- The tail of `unlock_password_data` after secret recovery
(lines 393-408): fingerprint check, then install the shielded key,
re-encode the bootstrap records, clear the ledger and set the
known-secret flag. -/
def unlock_finish (P : Prims) (s : Store) (secretdata : List Nat) :
    Except (UnlockErr × Store) Store :=
  if verify_secret P s secretdata = true then
    let key := secretdata
    .ok { s with
          shieldedkey := some key
          accountdict := s.bootstrap_accounts.foldl
            (fun d p => promote_in_dict P key p.1 p.2 d) s.accountdict
          bootstrap_accounts := []
          knownsecret := true }
  else .error (.badUnlock, s)

/-- `unlock_password_data` (lines 357-408).  A raised `ValueError`
carries the store state at the moment of the raise (no store field is
assigned before the fingerprint check passes). -/
def unlock_password_data (P : Prims) (s : Store)
    (logindata : List (String × List Nat)) : Except (UnlockErr × Store) Store :=
  if s.knownsecret = true then .error (.alreadyOperational, s)
  else
    match build_sharelist P s logindata with
    | .error e => .error (login_err_to_unlock e, s)
    | .ok sharelist =>
      match P.recover_secretdata sharelist with
      | .error _ => .error (.recoveryFailure, s)
      | .ok secretdata => unlock_finish P s secretdata

/-- The instance state captured by `pickle.dumps(self)` in
`write_password_data` (line 350), after lines 346-348 have overwritten
`self.secret` (a previously nonexistent attribute), `self.shieldedkey`
and `self.reedsolomonobj`.  `rs_engine` records whether a share-engine
object is part of the pickle; `secret` is the stray attribute. -/
structure Serialized where
  threshold : Nat
  knownsecret : Bool
  isolated_check_bits : Nat
  nextavailableshare : Option Int
  accountdict : List (String × List Entry)
  bootstrap_accounts : List (String × Nat)
  secret_integrity_check : Option (List Nat)
  shieldedkey : Option (List Nat)
  rs_engine : Bool
  secret : Option (List Nat)
deriving DecidableEq, Repr

/-- `write_password_data` (lines 335-354): raise when
`threshold >= nextavailableshare` (Python 2 sorts `None` below every
int, so a missing counter also raises), otherwise emit the pickled
instance state.  `knownsecret` is backed up (line 342) and restored
(line 352) but never cleared — line 346 clears `self.secret` instead —
so it is serialized with its live value. -/
def write_password_data (s : Store) : Except Unit Serialized :=
  let undecodable :=
    match s.nextavailableshare with
    | none => true
    | some n => (s.threshold : Int) ≥ n
  if undecodable then .error ()
  else .ok
    { threshold := s.threshold
      knownsecret := s.knownsecret
      isolated_check_bits := s.isolated_check_bits
      nextavailableshare := s.nextavailableshare
      accountdict := s.accountdict
      bootstrap_accounts := s.bootstrap_accounts
      secret_integrity_check := s.secret_integrity_check
      shieldedkey := none
      rs_engine := false
      secret := none }

/-- A store with the shielded key and the known-secret flag erased; the
specification demands that serialization be insensitive to this
erasure. -/
def erase_secret_state (s : Store) : Store :=
  { s with shieldedkey := none, knownsecret := false }

/-- Modelled from the spec (section 4.4.1): the isolated-check suffix as
the specification words it, namely the last `icbs` bytes of the hash
iterated a given number of times.  Used to compare the code's
`create_isolated_validation_bits` against the specified iteration
count. -/
def spec_icb (H : List Nat → List Nat) (iterations icbs : Nat)
    (h : List Nat) : List Nat :=
  let r := H^[iterations] h
  r.drop (r.length - icbs)

-- Decidable equality for `Except`, for evaluating concrete runs.
deriving instance DecidableEq for Except

/-- Concrete primitives for the bootstrap-promotion runs: the hash is the
identity (so a salted hash is `salt ++ password`), the cipher prepends a
zero byte (so ciphertexts differ from plaintexts), and recovery always
returns the secret `[5]`. -/
def Pid : Prims :=
  { sha256 := fun l => l
    aes_encrypt := fun _ m => 0 :: m
    compute_share := fun _ => []
    is_valid_share := fun _ _ => false
    recover_secretdata := fun _ => .ok [5] }

/-- A locked store (isolated-check bits 0) holding one bootstrap account
`u` with salt `[1]` and password `[2]` (so the raw salted hash is
`[1, 2]` under the identity hash) and the fingerprint of secret `[5]`. -/
def s0C1 : Store :=
  { threshold := 1
    knownsecret := false
    isolated_check_bits := 0
    shieldedkey := none
    secret_integrity_check := some [5]
    nextavailableshare := some 2
    accountdict := [("u", [{ sharenumber := -1, salt := [1], passhash := [1, 2] }])]
    bootstrap_accounts := [("u", 0)] }

/-- The store `s0C1` after a successful unlock: the record's share number
is 0 and the ciphertext went to the stray `passshash` field, while
`passhash` still holds the raw salted hash. -/
def s1C1 : Store :=
  { s0C1 with
    knownsecret := true
    shieldedkey := some [5]
    accountdict := [("u", [{ sharenumber := 0, salt := [1], passhash := [1, 2],
                             passshash := some [0, 1, 2] }])]
    bootstrap_accounts := [] }

/-- `s0C1` with two isolated-check bits. -/
def s0C6 : Store := { s0C1 with isolated_check_bits := 2 }

/-- `s1C1` with two isolated-check bits. -/
def s1C6 : Store := { s1C1 with isolated_check_bits := 2 }

/-- An unlocked store that `write_password_data` accepts. -/
def sW : Store :=
  { threshold := 1
    knownsecret := true
    isolated_check_bits := 0
    shieldedkey := some [9]
    secret_integrity_check := some [5]
    nextavailableshare := some 3
    accountdict := []
    bootstrap_accounts := [] }

/-- A locked store holding one bootstrap account `bob` (salt `[3]`,
raw salted hash `[9, 9]`). -/
def s3 : Store :=
  { threshold := 1
    knownsecret := false
    isolated_check_bits := 0
    shieldedkey := none
    secret_integrity_check := none
    nextavailableshare := some 2
    accountdict := [("bob", [{ sharenumber := -1, salt := [3], passhash := [9, 9] }])]
    bootstrap_accounts := [("bob", 0)] }

/-- An account map whose protector records use share numbers 1, 2, 5. -/
def d4 : List (String × List Entry) :=
  [("a", [{ sharenumber := 1, salt := [], passhash := [] }]),
   ("b", [{ sharenumber := 2, salt := [], passhash := [] }]),
   ("c", [{ sharenumber := 5, salt := [], passhash := [] }])]

/-- A hash with no short iteration cycles: it maps `[n]` to `[n + 1]`,
so iterating it 999 and 1000 times from `[0]` gives different bytes. -/
def succHash : List Nat → List Nat := fun l => [l.headD 0 + 1]

/-- Primitives for the witness of the create/login round trip: hashes
are the constant 32-byte zero string, encryption adds one to every byte
(length-preserving), every share is the constant 32-byte `7` string and
exactly those byte strings are valid shares. -/
def P5 : Prims :=
  { sha256 := fun _ => List.replicate 32 0
    aes_encrypt := fun _ m => m.map (fun x => x + 1)
    compute_share := fun _ => List.replicate 32 7
    is_valid_share := fun _ d => d == List.replicate 32 7
    recover_secretdata := fun _ => .error () }

/-- A fresh unlocked store (threshold 2, no accounts yet). -/
def s5 : Store :=
  { threshold := 2
    knownsecret := true
    isolated_check_bits := 0
    shieldedkey := some [1]
    secret_integrity_check := none
    nextavailableshare := some 1
    accountdict := []
    bootstrap_accounts := [] }

/-- `s5` after `create_account "u" [5] 1` with empty salts under `P5`:
one protector record with share number 1 and passhash
`hash XOR share = replicate 32 7`. -/
def s5' : Store :=
  { s5 with
    accountdict := [("u", [{ sharenumber := 1, salt := [],
                             passhash := List.replicate 32 7 }])]
    nextavailableshare := some 2 }

/-- An empty locked store for the unlock-failure witness. -/
def s8 : Store :=
  { threshold := 1
    knownsecret := false
    isolated_check_bits := 0
    shieldedkey := none
    secret_integrity_check := none
    nextavailableshare := none
    accountdict := []
    bootstrap_accounts := [] }

/-- Primitives where exactly the shares at coordinate 2 validate. -/
def P9 : Prims :=
  { sha256 := fun l => l
    aes_encrypt := fun _ m => m
    compute_share := fun _ => []
    is_valid_share := fun x _ => x == 2
    recover_secretdata := fun _ => .error () }

/-- A protector record at coordinate 1 whose passhash does not match
password `[4]` under `P9` (its share `[3, 4] XOR [9, 9]` is invalid). -/
def e9a : Entry := { sharenumber := 1, salt := [3], passhash := [9, 9] }

/-- A protector record at coordinate 2, which validates password `[4]`
under `P9` (every share at coordinate 2 is valid). -/
def e9b : Entry := { sharenumber := 2, salt := [3], passhash := [8, 8] }

/-- An unlocked store where user `u` has records `[e9a, e9b]`: the
second record validates password `[4]`, the first does not. -/
def s9 : Store :=
  { threshold := 1
    knownsecret := true
    isolated_check_bits := 0
    shieldedkey := some [0]
    secret_integrity_check := none
    nextavailableshare := some 3
    accountdict := [("u", [e9a, e9b])]
    bootstrap_accounts := [] }

/-- `s9` with the two records of `u` in the opposite order. -/
def s9swapped : Store := { s9 with accountdict := [("u", [e9b, e9a])] }

/-- Folding a one-argument function over any list is iteration. -/
lemma foldl_apply_eq_iterate {α : Type} (f : α → α) :
    ∀ (l : List Nat) (x : α), l.foldl (fun a _ => f a) x = f^[l.length] x := by
  intro l
  induction l with
  | nil => intro x; rfl
  | cons y t ih =>
    intro x
    rw [List.foldl_cons, ih, List.length_cons, Function.iterate_succ_apply]

/-- Folding a function that ignores the list element and returns its
accumulator unchanged is the identity. -/
lemma foldl_keep {α : Type} : ∀ (l : List Nat) (x : α),
    l.foldl (fun a _ => a) x = x
  | [], _ => rfl
  | _ :: t, x => foldl_keep t x

/-- `pyRange a b` has `b - a` elements, like Python `range(a, b)`. -/
lemma length_pyRange (a b : Nat) : (pyRange a b).length = b - a := by
  simp [pyRange]

/-- Under the identity hash, `verify_secret` accepts exactly the stored
fingerprint. -/
lemma verify_secret_Pid (s : Store) (x : List Nat)
    (h : s.secret_integrity_check = some x) : verify_secret Pid s x = true := by
  simp only [verify_secret, Pid, foldl_keep, h]
  simp

/-- Unlocking a locked store with an empty submission list reduces to
the post-recovery phase on whatever the engine recovers from no
shares. -/
lemma unlock_nil (P : Prims) (s : Store) (hks : s.knownsecret = false)
    (secret : List Nat) (hrec : P.recover_secretdata [] = .ok secret) :
    unlock_password_data P s [] = unlock_finish P s secret := by
  unfold unlock_password_data
  rw [if_neg (by simp [hks])]
  dsimp only [build_sharelist]
  rw [hrec]

/-- Looking up a user appended to a map that does not contain them. -/
lemma lookupAccount_append_self {d : List (String × List Entry)} {u : String}
    (h : lookupAccount d u = none) (es : List Entry) :
    lookupAccount (d ++ [(u, es)]) u = some es := by
  induction d with
  | nil => simp [lookupAccount]
  | cons p rest ih =>
    obtain ⟨v, ves⟩ := p
    by_cases hv : v = u
    · simp [lookupAccount, hv] at h
    · simp only [List.cons_append, lookupAccount, if_neg hv] at h ⊢
      exact ih h

/-- The isolated-check suffix has exactly `icbs` bytes when the hash
output is 32 bytes long and `icbs ≤ 32`. -/
lemma icb_length {H : List Nat → List Nat} (hH : ∀ m, (H m).length = 32)
    {icbs : Nat} (hb : icbs ≤ 32) (h : List Nat) :
    (create_isolated_validation_bits H icbs h).length = icbs := by
  unfold create_isolated_validation_bits
  rw [foldl_apply_eq_iterate, length_pyRange]
  have h999 : (H^[icb_iterations - 1] h).length = 32 := by
    have he : icb_iterations - 1 = 998 + 1 := by norm_num [icb_iterations]
    rw [he, Function.iterate_succ_apply']
    exact hH _
  rw [List.length_drop, h999]
  omega

/-- XOR of byte lists cancels: `a XOR (a XOR b) = b`. -/
lemma zipWith_xor_cancel (a : List Nat) : ∀ (b : List Nat),
    a.length = b.length →
    List.zipWith Nat.xor a (List.zipWith Nat.xor a b) = b := by
  induction a with
  | nil =>
    intro b h
    cases b with
    | nil => rfl
    | cons y t => simp at h
  | cons x a ih =>
    intro b h
    cases b with
    | nil => simp at h
    | cons y t =>
      simp only [List.zipWith_cons_cons, List.cons.injEq]
      constructor
      · show x ^^^ (x ^^^ y) = y
        rw [← Nat.xor_assoc, Nat.xor_self, Nat.zero_xor]
      · exact ih t (by simpa using h)

/-- A shielded record freshly created from `(salt, pw)` validates `pw`
in an unlocked store. -/
lemma login_shielded {P : Prims} {s : Store} {key : List Nat}
    (hlen : ∀ m, (P.sha256 m).length = 32)
    (haes : ∀ k m, (P.aes_encrypt k m).length = m.length)
    (hb : s.isolated_check_bits ≤ 32)
    (hks : s.knownsecret = true)
    (hkey : s.shieldedkey = some key)
    (salt pw : List Nat) :
    login_entry P s pw
      { sharenumber := 0
        salt := salt
        passhash := P.aes_encrypt key (P.sha256 (salt ++ pw))
          ++ create_isolated_validation_bits P.sha256 s.isolated_check_bits
              (P.sha256 (salt ++ pw))
        passshash := none } = .ok (some true) := by
  have hlh : (P.sha256 (salt ++ pw)).length = 32 := hlen _
  have haesl : (P.aes_encrypt key (P.sha256 (salt ++ pw))).length = 32 := by
    rw [haes]; exact hlh
  have hicb : (create_isolated_validation_bits P.sha256 s.isolated_check_bits
      (P.sha256 (salt ++ pw))).length = s.isolated_check_bits :=
    icb_length hlen hb _
  have htake : (P.aes_encrypt key (P.sha256 (salt ++ pw))
      ++ create_isolated_validation_bits P.sha256 s.isolated_check_bits
          (P.sha256 (salt ++ pw))).take
      ((P.aes_encrypt key (P.sha256 (salt ++ pw))
        ++ create_isolated_validation_bits P.sha256 s.isolated_check_bits
            (P.sha256 (salt ++ pw))).length - s.isolated_check_bits)
      = P.aes_encrypt key (P.sha256 (salt ++ pw)) := by
    rw [List.length_append, haesl, hicb]
    have h32 : 32 + s.isolated_check_bits - s.isolated_check_bits = 32 := by omega
    rw [h32]
    exact List.take_left' haesl
  simp only [login_entry]
  rw [htake, hks, hkey]
  simp [do_bytearray_XOR, hlh, haesl]

/-- A protector record freshly created from `(salt, pw)` at a coordinate
other than 0 and -1 validates `pw` in an unlocked store. -/
lemma login_protector {P : Prims} {s : Store} {x : Int}
    (hlen : ∀ m, (P.sha256 m).length = 32)
    (hcs : ∀ y, (P.compute_share y).length = 32)
    (hvalid : ∀ y, P.is_valid_share y (P.compute_share y) = true)
    (hb : s.isolated_check_bits ≤ 32)
    (hks : s.knownsecret = true)
    (hx1 : ¬ x = -1) (hx0 : ¬ x = 0)
    (salt pw : List Nat) :
    login_entry P s pw
      { sharenumber := x
        salt := salt
        passhash := List.zipWith Nat.xor (P.sha256 (salt ++ pw)) (P.compute_share x)
          ++ create_isolated_validation_bits P.sha256 s.isolated_check_bits
              (P.sha256 (salt ++ pw))
        passshash := none } = .ok (some true) := by
  have hlh : (P.sha256 (salt ++ pw)).length = 32 := hlen _
  have hxl : (List.zipWith Nat.xor (P.sha256 (salt ++ pw))
      (P.compute_share x)).length = 32 := by
    rw [List.length_zipWith, hlh, hcs]
    omega
  have hicb : (create_isolated_validation_bits P.sha256 s.isolated_check_bits
      (P.sha256 (salt ++ pw))).length = s.isolated_check_bits :=
    icb_length hlen hb _
  have htake : (List.zipWith Nat.xor (P.sha256 (salt ++ pw)) (P.compute_share x)
      ++ create_isolated_validation_bits P.sha256 s.isolated_check_bits
          (P.sha256 (salt ++ pw))).take
      ((List.zipWith Nat.xor (P.sha256 (salt ++ pw)) (P.compute_share x)
        ++ create_isolated_validation_bits P.sha256 s.isolated_check_bits
            (P.sha256 (salt ++ pw))).length - s.isolated_check_bits)
      = List.zipWith Nat.xor (P.sha256 (salt ++ pw)) (P.compute_share x) := by
    rw [List.length_append, hxl, hicb]
    have h32 : 32 + s.isolated_check_bits - s.isolated_check_bits = 32 := by omega
    rw [h32]
    exact List.take_left' hxl
  have hcancel : List.zipWith Nat.xor (P.sha256 (salt ++ pw))
      (List.zipWith Nat.xor (P.sha256 (salt ++ pw)) (P.compute_share x))
      = P.compute_share x :=
    zipWith_xor_cancel _ _ (by rw [hlh, hcs])
  simp only [login_entry]
  rw [htake, hks]
  simp [do_bytearray_XOR, hlh, hxl, hx1, hx0, hcancel, hvalid]

/-- A share produced by `entry_share` carries the record's share
number. -/
lemma entry_share_fst {P : Prims} {icbs : Nat} {pw : List Nat} {e : Entry}
    {sh : Int × List Nat} (h : entry_share P icbs pw e = .ok sh) :
    sh.1 = e.sharenumber := by
  simp only [entry_share] at h
  split at h
  · exact absurd h (by simp)
  · simp only [Except.ok.injEq] at h
    rw [← h]

/-- Every share collected from one user's records has a nonzero share
number (the loop skips exactly the records with share number 0). -/
lemma user_shares_sharenumbers {P : Prims} {icbs : Nat} {pw : List Nat} :
    ∀ {es : List Entry} {l : List (Int × List Nat)},
      user_shares P icbs pw es = .ok l → ∀ p ∈ l, p.1 ≠ 0 := by
  intro es
  induction es with
  | nil =>
    intro l h p hp
    simp only [user_shares, Except.ok.injEq] at h
    rw [← h] at hp
    simp at hp
  | cons e rest ih =>
    intro l h p hp
    by_cases h0 : e.sharenumber = 0
    · rw [user_shares, if_pos h0] at h
      exact ih h p hp
    · rw [user_shares, if_neg h0] at h
      cases hes : entry_share P icbs pw e with
      | error err => rw [hes] at h; exact absurd h (by simp)
      | ok sh =>
        rw [hes] at h
        cases hrest : user_shares P icbs pw rest with
        | error err => rw [hrest] at h; exact absurd h (by simp [Except.map])
        | ok t =>
          rw [hrest] at h
          simp only [Except.map, Except.ok.injEq] at h
          rw [← h] at hp
          rcases List.mem_cons.mp hp with hp | hp
          · rw [hp, entry_share_fst hes]
            exact h0
          · exact ih hrest p hp

set_option maxRecDepth 8000 in
/-- Claim C1: the specification says that after a successful `unlock`
every former bootstrap record has share number 0, its `passhash` field
replaced by the AES encryption of the old salted hash (plus ICB suffix),
and that logging in with the original password then succeeds.  The code
sets the share number but writes the ciphertext to the misspelled
`passshash` key, so `passhash` keeps the raw salted hash and the login
returns false: concretely, unlocking the store `s0C1` (bootstrap user
`u`, salt `[1]`, password `[2]`) succeeds, yet the record's `passhash`
is still the raw hash `[1, 2]` and `is_valid_login` answers false. -/
theorem C1_bootstrap_promotion_bug :
    unlock_password_data Pid s0C1 [] = .ok s1C1 ∧
    s1C1.accountdict = [("u", [{ sharenumber := 0, salt := [1],
                                 passhash := [1, 2],
                                 passshash := some [0, 1, 2] }])] ∧
    is_valid_login Pid s1C1 "u" [2] = .ok (some false) := by
  refine ⟨?_, by decide, by decide⟩
  rw [unlock_nil Pid s0C1 (by decide) [5] rfl]
  unfold unlock_finish
  rw [verify_secret_Pid s0C1 [5] rfl]
  decide

/-- Claim C2: the specification demands that the emitted byte stream
never contain the known-secret flag — equivalently, that serialization
be unchanged when the shielded key and the flag are erased first.  The
code backs up and restores `knownsecret` but clears the nonexistent
attribute `secret` instead, so the live flag is pickled: serializing the
unlocked store `sW` yields `knownsecret = true` in the output, and the
output differs from that of the same store with the secret state
erased. -/
theorem C2_knownsecret_serialized_bug :
    (write_password_data sW).map Serialized.knownsecret = .ok true ∧
    write_password_data sW ≠ write_password_data (erase_secret_state sW) := by
  decide

/-- Claim C3, counterexample: the claim says bootstrap records (share
number -1) contribute no candidate shares to unlock recovery, but the
collection loop skips only share number 0: on the locked store `s3`
(bootstrap user `bob`, raw hash `[9, 9]`), submitting `bob` yields a
candidate share with share number -1. -/
theorem C3_counterexample :
    build_sharelist Pid s3 [("bob", [4])] = .ok [(-1, [10, 13])] := by
  decide

/-- Claim C3, amended: the candidate shares fed to recovery are built
only from submitted users' records whose share number is not 0
(shielded records contribute nothing, but bootstrap records do
contribute). -/
theorem C3_amended (P : Prims) (s : Store) (d : List (String × List Nat))
    (l : List (Int × List Nat)) (h : build_sharelist P s d = .ok l) :
    ∀ p ∈ l, p.1 ≠ 0 := by
  induction d generalizing l with
  | nil =>
    intro p hp
    simp only [build_sharelist, Except.ok.injEq] at h
    rw [← h] at hp
    simp at hp
  | cons ud rest ih =>
    obtain ⟨u, pw⟩ := ud
    intro p hp
    rw [build_sharelist] at h
    cases hlk : lookupAccount s.accountdict u with
    | none => rw [hlk] at h; exact absurd h (by simp)
    | some entries =>
      rw [hlk] at h
      dsimp only at h
      cases hus : user_shares P s.isolated_check_bits pw entries with
      | error e => rw [hus] at h; exact absurd h (by simp)
      | ok shs =>
        rw [hus] at h
        dsimp only at h
        cases hrest : build_sharelist P s rest with
        | error e => rw [hrest] at h; exact absurd h (by simp [Except.map])
        | ok t =>
          rw [hrest] at h
          simp only [Except.map, Except.ok.injEq] at h
          rw [← h] at hp
          rcases List.mem_append.mp hp with hp | hp
          · exact user_shares_sharenumbers hus p hp
          · exact ih t hrest p hp

/-- Witness for the amended claim C3 at the concrete store `s3` and the
concrete collected share. -/
theorem C3_amended_witness :
    ((-1 : Int), ([10, 13] : List Nat)).1 ≠ 0 :=
  C3_amended Pid s3 [("bob", [4])] [((-1 : Int), ([10, 13] : List Nat))]
    (by decide) ((-1 : Int), ([10, 13] : List Nat)) (by decide)

/-- Claim C4: the specification says loading sets the counter to the
maximum protector share number plus one, and itself flags the source
line `self.nextavailableshare += self.nextavailableshare` as a bug.  On
an account map with protector share numbers 1, 2, 5 the code computes
2 * 5 = 10, not 5 + 1. -/
theorem C4_load_counter_doubling_bug :
    load_nextavailableshare d4 = .ok 10 ∧
    ¬ load_nextavailableshare d4 = .ok (5 + 1) := by
  decide

set_option maxRecDepth 8000 in
/-- Claim C6: the specification says `is_valid_login` raises
`StillBootstrapping` exactly when locked with zero isolated-check bits,
`UnknownUser` on a missing user, and otherwise returns a boolean.  But
on the store `s1C6` — reached by a successful unlock of the locked store
`s0C6` with two isolated-check bits and a bootstrap account `u` — the
known user `u` triggers the length assertion of `_do_bytearray_XOR`
(the promoted record kept its raw 32-byte-analog passhash, which cannot
be sliced by the ICB width), so the call raises an `AssertionError`
instead of returning a verdict. -/
theorem C6_nonboolean_raise_bug :
    unlock_password_data Pid s0C6 [] = .ok s1C6 ∧
    s1C6.knownsecret = true ∧
    lookupAccount s1C6.accountdict "u" ≠ none ∧
    is_valid_login Pid s1C6 "u" [2] = .error .assertionError := by
  refine ⟨?_, by decide, by decide, by decide⟩
  rw [unlock_nil Pid s0C6 (by decide) [5] rfl]
  unfold unlock_finish
  rw [verify_secret_Pid s0C6 [5] rfl]
  decide

set_option maxRecDepth 8000 in
/-- Claim C7, counterexample: the claim says the isolated-check suffix
uses SHA-256 iterated exactly 1000 times, but the loop
`for i in range(1, 1000)` performs 999 applications; with the hash
`succHash` (which has no short cycles) the code's suffix differs from
the 1000-fold iterate's suffix. -/
theorem C7_counterexample :
    create_isolated_validation_bits succHash 1 [0]
      ≠ spec_icb succHash 1000 1 [0] := by
  decide

/-- Claim C7, amended: the isolated-check suffix equals the last `icbs`
bytes of the hash iterated exactly `icb_iterations - 1 = 999` times. -/
theorem C7_amended (H : List Nat → List Nat) (icbs : Nat) (h : List Nat) :
    create_isolated_validation_bits H icbs h
      = spec_icb H (icb_iterations - 1) icbs h := by
  simp only [create_isolated_validation_bits, spec_icb]
  rw [foldl_apply_eq_iterate, length_pyRange]

/-- Claim C9: the specification (and the code's own comment, lines
280-283) says all records of a user are checked, returning true on the
first positive match.  But every branch of the loop body returns, so
only the first record is ever examined: with user `u` holding records
`[e9a, e9b]` where the second validates password `[4]` and the first
does not, the verdict is false — while the same records in the opposite
order give true. -/
theorem C9_first_record_only_bug :
    is_valid_login P9 s9 "u" [4] = .ok (some false) ∧
    is_valid_login P9 s9swapped "u" [4] = .ok (some true) := by
  decide

/-- Claim C10: `is_valid_login` is read-only: whatever it returns or
raises, the entire store state after the call is the store state before
the call. -/
theorem C10_login_frame (P : Prims) (s : Store) (username : String)
    (password : List Nat) :
    (is_valid_login_st P s username password).2 = s := by
  unfold is_valid_login_st
  split
  · rfl
  · split
    · rfl
    · split <;> rfl

/-- In a store with the known-secret flag set, `is_valid_login` reduces
to checking the user's first record (the loop body always returns). -/
lemma is_valid_login_cons (P : Prims) (s : Store) (u : String)
    (pw : List Nat) (e : Entry) (rest : List Entry)
    (hks : s.knownsecret = true)
    (hlk : lookupAccount s.accountdict u = some (e :: rest)) :
    is_valid_login P s u pw = login_entry P s pw e := by
  unfold is_valid_login is_valid_login_st
  rw [if_neg (by simp [hks]), hlk]

/-- The first record built by the protector loop of `create_account`
uses coordinate `next` and the 0-th salt. -/
lemma mk_protector_entries_head {P : Prims} {icbs : Nat} {pw : List Nat}
    {salts : Nat → List Nat} {next : Int} {m : Nat} {entries : List Entry}
    (hlen : ∀ b, (P.sha256 b).length = 32)
    (hcs : ∀ x, (P.compute_share x).length = 32)
    (h : mk_protector_entries P icbs pw salts next (m + 1) = .ok entries) :
    ∃ rest, entries =
      { sharenumber := next + ((0 : Nat) : Int)
        salt := salts 0
        passhash := List.zipWith Nat.xor (P.sha256 (salts 0 ++ pw))
            (P.compute_share (next + ((0 : Nat) : Int)))
          ++ create_isolated_validation_bits P.sha256 icbs
              (P.sha256 (salts 0 ++ pw))
        passshash := none } :: rest := by
  rw [mk_protector_entries, List.range_succ_eq_map, List.mapM_cons] at h
  dsimp only at h
  have hx : do_bytearray_XOR (P.sha256 (salts 0 ++ pw))
      (P.compute_share (next + ((0 : Nat) : Int)))
      = .ok (List.zipWith Nat.xor (P.sha256 (salts 0 ++ pw))
          (P.compute_share (next + ((0 : Nat) : Int)))) := by
    unfold do_bytearray_XOR
    rw [if_pos (by rw [hlen, hcs])]
  rw [hx] at h
  dsimp only [Bind.bind, Except.bind] at h
  split at h
  · exact absurd h (by simp)
  · dsimp only [Pure.pure, Except.pure] at h
    simp only [Except.ok.injEq] at h
    exact ⟨_, h.symm⟩

/-- Claim C8: `unlock` is all-or-nothing: whenever it raises on a
locked store — unknown submitted user, assertion failure while
collecting shares, recovery failure, or fingerprint mismatch — the
store state carried at the raise is still locked (known-secret flag
false, no shielded key) and the account map is untouched. -/
theorem C8_unlock_all_or_nothing (P : Prims) (s : Store)
    (d : List (String × List Nat)) (e : UnlockErr) (s' : Store)
    (hks : s.knownsecret = false) (hkey : s.shieldedkey = none)
    (h : unlock_password_data P s d = .error (e, s')) :
    s'.knownsecret = false ∧ s'.shieldedkey = none ∧
      s'.accountdict = s.accountdict := by
  unfold unlock_password_data at h
  rw [if_neg (by simp [hks])] at h
  split at h
  · simp only [Except.error.injEq, Prod.mk.injEq] at h
    obtain ⟨-, hs⟩ := h
    rw [← hs]
    exact ⟨hks, hkey, rfl⟩
  · split at h
    · simp only [Except.error.injEq, Prod.mk.injEq] at h
      obtain ⟨-, hs⟩ := h
      rw [← hs]
      exact ⟨hks, hkey, rfl⟩
    · unfold unlock_finish at h
      split at h
      · exact absurd h (by simp)
      · simp only [Except.error.injEq, Prod.mk.injEq] at h
        obtain ⟨-, hs⟩ := h
        rw [← hs]
        exact ⟨hks, hkey, rfl⟩

/-- Witness for claim C8: unlocking the locked empty store `s8` with an
unknown user fails and carries `s8` itself, which is still locked. -/
theorem C8_witness :
    s8.knownsecret = false ∧ s8.shieldedkey = none ∧
      s8.accountdict = s8.accountdict :=
  C8_unlock_all_or_nothing Pid s8 [("ghost", [])] .unknownUser s8
    (by decide) (by decide) (by decide)

/-- Claim C5: in an unlocked store (shielded key present, share counter
at least 1, at most 32 isolated-check bits) whose primitives satisfy
the share-engine contract of the specification (section 4.3) and whose
hash and cipher have the standard lengths, every account that
`create_account` successfully creates — shielded (0 shares) or
protector (one or more shares) — validates its own password through
`is_valid_login`. -/
theorem C5_create_account_roundtrip (P : Prims) (s : Store)
    (username : String) (password : List Nat) (shares : Nat)
    (salts : Nat → List Nat) (s' : Store) (key : List Nat) (next : Int)
    (hlen : ∀ m, (P.sha256 m).length = 32)
    (haes : ∀ k m, (P.aes_encrypt k m).length = m.length)
    (hcs : ∀ x, (P.compute_share x).length = 32)
    (hvalid : ∀ x, P.is_valid_share x (P.compute_share x) = true)
    (hks : s.knownsecret = true)
    (hkey : s.shieldedkey = some key)
    (hnext : s.nextavailableshare = some next)
    (hpos : 1 ≤ next)
    (hb : s.isolated_check_bits ≤ 32)
    (hcreate : create_account P s username password shares salts = .ok s') :
    is_valid_login P s' username password = .ok (some true) := by
  unfold create_account at hcreate
  by_cases hdup : (lookupAccount s.accountdict username).isSome
  · rw [if_pos hdup] at hcreate
    exact absurd hcreate (by simp)
  rw [if_neg hdup] at hcreate
  have hlknone : lookupAccount s.accountdict username = none :=
    Option.not_isSome_iff_eq_none.mp hdup
  by_cases h255 : shares > 255
  · rw [if_pos h255] at hcreate
    exact absurd hcreate (by simp)
  rw [if_neg h255, hnext] at hcreate
  dsimp only at hcreate
  by_cases hexc : (shares : Int) + next > 255
  · rw [if_pos hexc] at hcreate
    exact absurd hcreate (by simp)
  rw [if_neg hexc, if_neg (by simp [hks])] at hcreate
  by_cases hsh0 : shares = 0
  · -- shielded record
    rw [if_pos hsh0, hkey] at hcreate
    simp only [Except.ok.injEq] at hcreate
    subst hcreate
    rw [is_valid_login_cons P _ username password _ []
      (by simpa using hks) (by
        dsimp only
        exact lookupAccount_append_self hlknone _)]
    exact login_shielded hlen haes (by simpa using hb) (by simpa using hks)
      (by simpa using hkey) (salts 0) password
  · -- protector records
    rw [if_neg hsh0] at hcreate
    cases hmk : mk_protector_entries P s.isolated_check_bits password salts
        next shares with
    | error err =>
      rw [hmk] at hcreate
      exact absurd hcreate (by simp)
    | ok entries =>
      rw [hmk] at hcreate
      simp only [Except.ok.injEq] at hcreate
      subst hcreate
      obtain ⟨m, rfl⟩ : ∃ m, shares = m + 1 := ⟨shares - 1, by omega⟩
      obtain ⟨rest, hentries⟩ := mk_protector_entries_head hlen hcs hmk
      rw [is_valid_login_cons P _ username password _ rest
        (by simpa using hks) (by
          dsimp only
          rw [hentries] at hmk ⊢
          exact lookupAccount_append_self hlknone _)]
      exact login_protector hlen hcs hvalid (by simpa using hb)
        (by simpa using hks) (by push_cast; omega) (by push_cast; omega)
        (salts 0) password

set_option maxRecDepth 8000 in
/-- Witness for claim C5: under the concrete primitives `P5`, creating
the one-share account `u` with password `[5]` in the fresh store `s5`
yields `s5'`, whose login with `[5]` is valid. -/
theorem C5_witness :
    is_valid_login P5 s5' "u" [5] = .ok (some true) :=
  C5_create_account_roundtrip P5 s5 "u" [5] 1 (fun _ => []) s5' [1] 1
    (fun m => by simp [P5])
    (fun k m => by simp [P5])
    (fun x => by simp [P5])
    (fun x => by simp [P5])
    (by decide) (by decide) (by decide) (by decide) (by decide)
    (by decide)
